import Mathlib

/-!
Shallow embedding of the Monte-Carlo business simulator
(`simulation.py`, class `BusinessSimulator`) and proofs about it.

Modelling conventions:
* Python floats carrying money / customer counts are modelled as `ℚ`;
  headcount is modelled as `ℤ` (the caller passes an integer team size).
* Python division raises `ZeroDivisionError` on a zero divisor, and list /
  numpy indexing raises `IndexError` out of range; both are modelled by
  `Except PyError`, with `checkedDiv` for every division the source performs.
* The three per-step random draws (`np.random.uniform(-0.05, 0.05)`, the
  10% churn-spike roll, the 5% cost-spike roll) are modelled by an explicit
  `Shock` record passed to `step`; the driver receives a shock assignment
  indexed by run and month.  Theorems quantify over all shock values.
-/

/-- Python runtime error classes that the source can raise:
`divByZero` models `ZeroDivisionError`, `indexError` models `IndexError`,
`valueError` models a descriptive `ValueError` (never raised by this code). -/
inductive PyError where
  | divByZero : PyError
  | indexError : PyError
  | valueError : String → PyError
deriving Repr, DecidableEq

instance {ε α : Type} [DecidableEq ε] [DecidableEq α] : DecidableEq (Except ε α) := fun a b =>
  match a, b with
  | Except.error e1, Except.error e2 =>
    if h : e1 = e2 then isTrue (by rw [h]) else isFalse (fun hh => h (Except.error.inj hh))
  | Except.error _, Except.ok _ => isFalse (fun hh => Except.noConfusion hh)
  | Except.ok _, Except.error _ => isFalse (fun hh => Except.noConfusion hh)
  | Except.ok a1, Except.ok a2 =>
    if h : a1 = a2 then isTrue (by rw [h]) else isFalse (fun hh => h (Except.ok.inj hh))

/-- Division as Python performs it: `ZeroDivisionError` on a zero divisor. -/
def checkedDiv (a b : ℚ) : Except PyError ℚ :=
  if b = 0 then Except.error PyError.divByZero else Except.ok (a / b)

/-- One per-step draw of the three independent random sources in `step`:
`demand` is the value of `np.random.uniform(-0.05, 0.05)`; `churnSpike` is
whether `np.random.random() < 0.10` held; `costSpike` is whether
`np.random.random() < 0.05` held. -/
structure Shock where
  demand : ℚ
  churnSpike : Bool
  costSpike : Bool
deriving Repr, DecidableEq

/-- The per-month company state dict: keys `cash`, `revenue`, `burn`,
`headcount`, `alive`. -/
structure CompanyState where
  cash : ℚ
  revenue : ℚ
  burn : ℚ
  headcount : ℤ
  alive : Bool
deriving Repr, DecidableEq

instance : Inhabited CompanyState := ⟨⟨0, 0, 0, 0, false⟩⟩

/-- The engine's constructor parameters (`BusinessSimulator.__init__`). -/
structure BusinessSimulator where
  start_cash : ℚ
  start_revenue : ℚ
  start_burn : ℚ
  start_headcount : ℤ
  cac : ℚ
  arpu : ℚ
deriving Repr, DecidableEq

/-- Constant `hiring_cost_per_head = 5000` from `step` (defined but never
used by the source either; kept for fidelity). -/
def hiring_cost_per_head : ℚ := 5000

/-- Constant `salary_per_head = 8000` from `step`. -/
def salary_per_head : ℚ := 8000

/-- Constant `organic_growth_rate = 0.02` from `step`. -/
def organic_growth_rate : ℚ := 2 / 100

/-- One month of simulation: `BusinessSimulator.step`.  Strategy arguments
are the raw strings the source compares against (`'Aggressive'`,
`'Moderate'`, `'Double'`, ...); unrecognized strings fall through with zero
effect, as in the source. -/
def step (sim : BusinessSimulator) (current_state : CompanyState)
    (strategy_hiring strategy_marketing : String) (shock : Shock) :
    Except PyError CompanyState :=
  if current_state.cash ≤ 0 then
    Except.ok ⟨0, 0, 0, current_state.headcount, false⟩
  else
    let new_hires : ℤ :=
      if strategy_hiring = "Aggressive" then 2
      else if strategy_hiring = "Moderate" then 1
      else 0
    let headcount := current_state.headcount + new_hires
    let burn1 := current_state.burn + (new_hires : ℚ) * salary_per_head
    let marketing_budget : ℚ := if strategy_marketing = "Double" then 5000 else 0
    let burn2 := burn1 + marketing_budget
    match checkedDiv marketing_budget (max sim.cac 1) with
    | Except.error e => Except.error e
    | Except.ok paid_customers =>
      match checkedDiv current_state.revenue (max sim.arpu 1) with
      | Except.error e => Except.error e
      | Except.ok current_customers =>
        let organic_customers := current_customers * organic_growth_rate
        let total_new_customers := paid_customers + organic_customers
        let total_new_customers := total_new_customers * (1 + shock.demand)
        let churn_rate : ℚ := if shock.churnSpike then 5 / 100 + 10 / 100 else 5 / 100
        let churned_customers := current_customers * churn_rate
        let next_customers := current_customers + total_new_customers - churned_customers
        let cost_shock : ℚ := if shock.costSpike then 10 / 100 else 0
        let revenue2 := next_customers * sim.arpu
        let burn3 := burn2 * (1 + cost_shock)
        let cash2 := current_state.cash + revenue2 - burn3
        if cash2 ≤ 0 then
          Except.ok ⟨0, revenue2, burn3, headcount, false⟩
        else
          Except.ok ⟨cash2, revenue2, burn3, headcount, true⟩

/-- The starting state built at the top of each run in `run_simulation`. -/
def initState (sim : BusinessSimulator) : CompanyState :=
  ⟨sim.start_cash, sim.start_revenue, sim.start_burn, sim.start_headcount, true⟩

/-- The inner month loop of `run_simulation`: `month` is the current month
index (used only to pick the shock draw), `k` the number of months still to
simulate.  A dead state is appended as a copy without calling `step`
(`if not state['alive']: run_history.append(state.copy()); continue`). -/
def runMonths (sim : BusinessSimulator) (strategy_hiring strategy_marketing : String)
    (shocks : ℕ → Shock) : ℕ → ℕ → CompanyState → Except PyError (List CompanyState)
  | _, 0, _ => Except.ok []
  | month, k + 1, state =>
    if state.alive then
      match step sim state strategy_hiring strategy_marketing (shocks month) with
      | Except.error e => Except.error e
      | Except.ok s2 =>
        match runMonths sim strategy_hiring strategy_marketing shocks (month + 1) k s2 with
        | Except.error e => Except.error e
        | Except.ok rest => Except.ok (s2 :: rest)
    else
      match runMonths sim strategy_hiring strategy_marketing shocks (month + 1) k state with
      | Except.error e => Except.error e
      | Except.ok rest => Except.ok (state :: rest)

/-- The outer run loop of `run_simulation`: `r` is the current run index
(used only to pick the shock stream), `k` the number of runs still to do. -/
def runRuns (sim : BusinessSimulator) (months : ℕ)
    (strategy_hiring strategy_marketing : String) (shocks : ℕ → ℕ → Shock) :
    ℕ → ℕ → Except PyError (List (List CompanyState))
  | _, 0 => Except.ok []
  | r, k + 1 =>
    match runMonths sim strategy_hiring strategy_marketing (shocks r) 0 months
        (initState sim) with
    | Except.error e => Except.error e
    | Except.ok run_history =>
      match runRuns sim months strategy_hiring strategy_marketing shocks (r + 1) k with
      | Except.error e => Except.error e
      | Except.ok rest => Except.ok (run_history :: rest)

/-- `BusinessSimulator.run_simulation(months, runs, ...)`.  `months` and
`runs` are integers as in Python; `range(n)` over a non-positive `n` is
empty, which `Int.toNat` reproduces. -/
def run_simulation (sim : BusinessSimulator) (months runs : ℤ)
    (strategy_hiring strategy_marketing : String) (shocks : ℕ → ℕ → Shock) :
    Except PyError (List (List CompanyState)) :=
  runRuns sim months.toNat strategy_hiring strategy_marketing shocks 0 runs.toNat

/-- Result record of `process_results`: per-month median / p10 / p90 cash,
survival rate, final-cash distribution and the 1-based month indices. -/
structure Summary where
  median_cash : List ℚ
  p10_cash : List ℚ
  p90_cash : List ℚ
  survival_rate : ℚ
  final_cash : List ℚ
  months : List ℕ
deriving Repr, DecidableEq

/-- Linear interpolation into a sorted sample at fractional position
`pos`: the value is `s[i] + (pos - i) * (s[i+1] - s[i])` with
`i = floor pos`, or the last element when `i + 1` is out of range. -/
def npInterp (s : List ℚ) (pos : ℚ) : ℚ :=
  if (Int.floor pos).toNat + 1 < s.length then
    s.getD (Int.floor pos).toNat 0
      + (pos - ((Int.floor pos).toNat : ℚ))
        * (s.getD ((Int.floor pos).toNat + 1) 0 - s.getD (Int.floor pos).toNat 0)
  else s.getD (s.length - 1) 0

/-- `np.percentile(xs, q)` with the default linear interpolation: the
value of the ascending sort of `xs` at position `q * (n - 1) / 100`. -/
def np_percentile (q : ℚ) (xs : List ℚ) : ℚ :=
  if xs.length = 0 then 0
  else npInterp (List.insertionSort (· ≤ ·) xs) (q * ((xs.length : ℚ) - 1) / 100)

/-- `np.median(xs)`: the middle element of the ascending sort for odd
length, the mean of the two middle elements for even length. -/
def np_median (xs : List ℚ) : ℚ :=
  if xs.length = 0 then 0
  else if xs.length % 2 = 1 then
    (List.insertionSort (· ≤ ·) xs).getD (xs.length / 2) 0
  else
    ((List.insertionSort (· ≤ ·) xs).getD (xs.length / 2 - 1) 0
      + (List.insertionSort (· ≤ ·) xs).getD (xs.length / 2) 0) / 2

/-- The per-run pass of `process_results`: for run `i`, the inner loop
`cash_matrix[i, t] = step['cash']` raises `IndexError` when the run is
longer than `months` (writing past the matrix's second axis); the row keeps
numpy's zero fill when the run is shorter.  Then `run[-1]` raises
`IndexError` on an empty run.  Yields per run the cash row, the final
`alive` flag and the final `cash`. -/
def processRuns (months : ℕ) :
    List (List CompanyState) → Except PyError (List (List ℚ × Bool × ℚ))
  | [] => Except.ok []
  | run :: rest =>
    if months < run.length then Except.error PyError.indexError
    else
      match run.getLast? with
      | none => Except.error PyError.indexError
      | some last =>
        match processRuns months rest with
        | Except.error e => Except.error e
        | Except.ok tail =>
          Except.ok ((run.map (fun st => st.cash)
              ++ List.replicate (months - run.length) 0, last.alive, last.cash) :: tail)

/-- Column `t` of the cash matrix (one entry per run). -/
def cashColumn (cash_matrix : List (List ℚ)) (t : ℕ) : List ℚ :=
  cash_matrix.map (fun row => row.getD t 0)

/-- `BusinessSimulator.process_results`.  `months = len(results[0])` raises
`IndexError` on an empty collection; the survival rate divides the count of
final-month survivors by `runs` (necessarily positive on the success path). -/
def process_results (results : List (List CompanyState)) : Except PyError Summary :=
  match results with
  | [] => Except.error PyError.indexError
  | r0 :: _ =>
    let months := r0.length
    let runs := results.length
    match processRuns months results with
    | Except.error e => Except.error e
    | Except.ok triples =>
      let cash_matrix := triples.map (fun x => x.1)
      let alive_final := triples.map (fun x => x.2.1)
      let final_cash := triples.map (fun x => x.2.2)
      Except.ok
        { median_cash := (List.range months).map (fun t => np_median (cashColumn cash_matrix t))
          p10_cash := (List.range months).map (fun t => np_percentile 10 (cashColumn cash_matrix t))
          p90_cash := (List.range months).map (fun t => np_percentile 90 (cashColumn cash_matrix t))
          survival_rate := ((alive_final.filter (fun b => b)).length : ℚ) / (runs : ℚ)
          final_cash := final_cash
          months := (List.range months).map (fun t => t + 1) }

/-- Simulator parameters used by the repository's own test suite
(`test_simulation.py`, `setUp`). -/
def testSim : BusinessSimulator := ⟨100000, 10000, 5000, 5, 50, 100⟩

/-- Simulator whose starting state is the spec's death scenario
`{cash: 100, revenue: 0, burn: 5000, headcount: 5}` with the test suite's
CAC and ARPU. -/
def sim100 : BusinessSimulator := ⟨100, 0, 5000, 5, 50, 100⟩

/-- The spec's death-scenario state as a step input. -/
def st100 : CompanyState := ⟨100, 0, 5000, 5, true⟩

/-- A neutral shock draw: zero demand shock, no churn spike, no cost spike. -/
def zeroShock : Shock := ⟨0, false, false⟩

/-- A shock assignment that is neutral for every run and month. -/
def zShocks : ℕ → ℕ → Shock := fun _ _ => zeroShock

/-- Number of hires chosen by `step` for a hiring-strategy string. -/
def new_hires_of (strategy_hiring : String) : ℤ :=
  if strategy_hiring = "Aggressive" then 2
  else if strategy_hiring = "Moderate" then 1
  else 0

/-- Marketing budget chosen by `step` for a marketing-strategy string. -/
def marketing_budget_of (strategy_marketing : String) : ℚ :=
  if strategy_marketing = "Double" then 5000 else 0

/-- Burn after the strategy effects of `step`, before the cost shock. -/
def preBurn (st : CompanyState) (strategy_hiring strategy_marketing : String) : ℚ :=
  st.burn + (new_hires_of strategy_hiring : ℚ) * salary_per_head
    + marketing_budget_of strategy_marketing

/-- Customer count after acquisition, organic growth and churn in `step`. -/
def nextCustomers (sim : BusinessSimulator) (st : CompanyState)
    (strategy_marketing : String) (shock : Shock) : ℚ :=
  let current_customers := st.revenue / max sim.arpu 1
  current_customers
    + (marketing_budget_of strategy_marketing / max sim.cac 1
        + current_customers * organic_growth_rate) * (1 + shock.demand)
    - current_customers * (if shock.churnSpike then 5 / 100 + 10 / 100 else 5 / 100)

/-- Revenue field produced by a live `step`: customer count times the raw
(unfloored) ARPU. -/
def stepRevenue (sim : BusinessSimulator) (st : CompanyState)
    (strategy_marketing : String) (shock : Shock) : ℚ :=
  nextCustomers sim st strategy_marketing shock * sim.arpu

/-- Burn field produced by a live `step`. -/
def stepBurn (st : CompanyState) (strategy_hiring strategy_marketing : String)
    (shock : Shock) : ℚ :=
  preBurn st strategy_hiring strategy_marketing
    * (1 + if shock.costSpike then 10 / 100 else 0)

/-- Unclamped cash produced by a live `step`. -/
def stepCash (sim : BusinessSimulator) (st : CompanyState)
    (strategy_hiring strategy_marketing : String) (shock : Shock) : ℚ :=
  st.cash + stepRevenue sim st strategy_marketing shock
    - stepBurn st strategy_hiring strategy_marketing shock

/-- The death state produced by the first month of the spec's death
scenario: cash clamped to 0 but burn frozen at 5000. -/
def dead1 : CompanyState := ⟨0, 0, 5000, 5, false⟩

/-- The step input used by `test_step_logic` in the repository's tests. -/
def stTest : CompanyState := ⟨100000, 10000, 5000, 5, true⟩

/-- Output of one neutral-shock step from `stTest` under `testSim`. -/
def s104700 : CompanyState := ⟨104700, 9700, 5000, 5, true⟩

/-- Output of one neutral-shock step from the death-scenario state under
marketing `Double` and `testSim`: the company survives. -/
def aliveCex : CompanyState := ⟨100, 10000, 10000, 5, true⟩

/-- A simulator with CAC = 0 and ARPU = 0 (degenerate unit economics). -/
def simZero : BusinessSimulator := ⟨100, 0, 5000, 5, 0, 0⟩

/-- Output of one step from the death scenario under `simZero` with
marketing `Double`. -/
def deadZ : CompanyState := ⟨0, 0, 10000, 5, false⟩

/-- A one-run, one-month state used for aggregator witnesses. -/
def sampleState : CompanyState := ⟨5, 0, 0, 5, true⟩

/-- The summary `process_results` produces on `[[sampleState]]`. -/
def sampleSummary : Summary := ⟨[5], [5], [5], 1, [5], [1]⟩

/-- A simulator configured with negative starting values. -/
def simNeg : BusinessSimulator := ⟨-500, -10, -20, -3, 50, 100⟩

/-- The dead state one step from `simNeg`'s (broke) starting state. -/
def deadNeg : CompanyState := ⟨0, 0, 0, -3, false⟩

/-! ## Basic lemmas about one step -/

/-- The two divisions in `step` have their divisor floored at 1, so they
never raise `ZeroDivisionError`. -/
theorem checkedDiv_max_one (a x : ℚ) :
    checkedDiv a (max x 1) = Except.ok (a / max x 1) := by
  unfold checkedDiv
  rw [if_neg]
  exact ne_of_gt (lt_of_lt_of_le zero_lt_one (le_max_right x 1))

/-- Characterization of `step` on a live input state in terms of the
derived component functions. -/
theorem step_live_eq (sim : BusinessSimulator) (st : CompanyState)
    (sh sm : String) (shock : Shock) (h : ¬ st.cash ≤ 0) :
    step sim st sh sm shock =
      (if stepCash sim st sh sm shock ≤ 0 then
        Except.ok ⟨0, stepRevenue sim st sm shock, stepBurn st sh sm shock,
          st.headcount + new_hires_of sh, false⟩
      else
        Except.ok ⟨stepCash sim st sh sm shock, stepRevenue sim st sm shock,
          stepBurn st sh sm shock, st.headcount + new_hires_of sh, true⟩) := by
  unfold step stepCash stepRevenue stepBurn preBurn nextCustomers new_hires_of
    marketing_budget_of
  rw [if_neg h]
  simp only [checkedDiv_max_one]

/-- A step never raises an exception, live or dead input alike. -/
theorem step_ok_exists (sim : BusinessSimulator) (st : CompanyState)
    (sh sm : String) (shock : Shock) :
    ∃ s2, step sim st sh sm shock = Except.ok s2 := by
  by_cases h : st.cash ≤ 0
  · refine ⟨⟨0, 0, 0, st.headcount, false⟩, ?_⟩
    unfold step
    rw [if_pos h]
  · rw [step_live_eq sim st sh sm shock h]
    split
    · exact ⟨_, rfl⟩
    · exact ⟨_, rfl⟩

/-- Every state a step returns has nonnegative cash, and has zero cash
whenever it is dead. -/
theorem step_out_good (sim : BusinessSimulator) (st : CompanyState)
    (sh sm : String) (shock : Shock) (s2 : CompanyState)
    (hok : step sim st sh sm shock = Except.ok s2) :
    0 ≤ s2.cash ∧ (s2.alive = false → s2.cash = 0) := by
  by_cases h : st.cash ≤ 0
  · unfold step at hok
    rw [if_pos h] at hok
    cases hok
    exact ⟨le_refl 0, fun _ => rfl⟩
  · rw [step_live_eq sim st sh sm shock h] at hok
    split at hok
    · cases hok
      exact ⟨le_refl 0, fun _ => rfl⟩
    · cases hok
      refine ⟨le_of_lt (lt_of_not_le (by assumption)), fun hfalse => ?_⟩
      exact absurd hfalse (by simp)

/-! ## Concrete evaluations used by counterexamples and witnesses -/

/-- One neutral-shock step from the test suite's `test_step_logic` input. -/
theorem eval_step_testSim :
    step testSim stTest ("None") ("Same") zeroShock = Except.ok s104700 := by
  simp [step, testSim, stTest, zeroShock, checkedDiv, salary_per_head,
    organic_growth_rate, s104700]
  try norm_num

/-- One neutral-shock step from the death-scenario state with marketing
`Double` under the test suite's CAC/ARPU: the company survives. -/
theorem eval_step_death_double :
    step testSim st100 ("None") ("Double") zeroShock = Except.ok aliveCex := by
  simp [step, testSim, st100, zeroShock, checkedDiv, salary_per_head,
    organic_growth_rate, aliveCex]
  try norm_num

/-- One neutral-shock step from the death-scenario state under a simulator
with ARPU = 0: revenue comes out 0. -/
theorem eval_step_simZero :
    step simZero st100 ("None") ("Double") zeroShock = Except.ok deadZ := by
  simp [step, simZero, st100, zeroShock, checkedDiv, salary_per_head,
    organic_growth_rate, deadZ]
  try norm_num

/-- One neutral-shock step from the death-scenario state with marketing
`Same`: the company dies with burn frozen at 5000. -/
theorem eval_step_sim100 :
    step sim100 st100 ("None") ("Same") zeroShock = Except.ok dead1 := by
  simp [step, sim100, st100, zeroShock, checkedDiv, salary_per_head,
    organic_growth_rate, dead1]
  try norm_num

/-- A two-month one-run simulation of the death scenario: the dead second
month is a verbatim copy of the death state, burn included. -/
theorem eval_run_sim100 :
    run_simulation sim100 2 1 ("None") ("Same") zShocks =
      Except.ok [[dead1, dead1]] := by
  simp [run_simulation, runRuns, runMonths, initState, step, sim100, zShocks,
    zeroShock, checkedDiv, salary_per_head, organic_growth_rate, dead1]
  try norm_num

/-- Aggregating the one-run one-month sample trajectory. -/
theorem eval_process_sample :
    process_results [[sampleState]] = Except.ok sampleSummary := by
  simp [process_results, processRuns, cashColumn, np_median, np_percentile,
    npInterp, List.insertionSort, List.orderedInsert, List.range_succ,
    sampleState, sampleSummary]
  try norm_num

/-! ## C2: cash update of a live step -/

/-- C2: for every live input state (cash > 0), any strategies and any shock
draws, `step` returns `cash' = cash + revenue' - burn'` with `alive = true`
when that quantity is positive, and `cash' = 0` with `alive = false` when
it is `≤ 0`. -/
theorem claim_C2 (sim : BusinessSimulator) (st : CompanyState) (sh sm : String)
    (shock : Shock) (s2 : CompanyState) (hlive : 0 < st.cash)
    (hok : step sim st sh sm shock = Except.ok s2) :
    (0 < st.cash + s2.revenue - s2.burn →
      s2.cash = st.cash + s2.revenue - s2.burn ∧ s2.alive = true) ∧
    (st.cash + s2.revenue - s2.burn ≤ 0 → s2.cash = 0 ∧ s2.alive = false) := by
  rw [step_live_eq sim st sh sm shock (not_le.mpr hlive)] at hok
  split at hok
  · rename_i hcond
    cases hok
    refine ⟨fun hpos => absurd ?_ (not_le.mpr hpos), fun _ => ⟨rfl, rfl⟩⟩
    simpa [stepCash] using hcond
  · rename_i hcond
    cases hok
    refine ⟨fun _ => ⟨rfl, rfl⟩, fun hle => absurd ?_ hcond⟩
    simpa [stepCash] using hle

/-- Witness for C2 at the test suite's step input. -/
theorem claim_C2_witness :
    s104700.cash = stTest.cash + s104700.revenue - s104700.burn ∧
      s104700.alive = true :=
  (claim_C2 testSim stTest ("None") ("Same") zeroShock s104700
      (by norm_num [stTest]) eval_step_testSim).1
    (by norm_num [stTest, s104700])

/-! ## C4: death short-circuit of a step -/

/-- C4: if the incoming state has `cash ≤ 0`, `step` returns exactly
`{cash = 0, revenue = 0, burn = 0, alive = false}` with headcount
unchanged; the strategies and the shock draw are quantified and unused, so
no strategy effect or randomness is applied. -/
theorem claim_C4 (sim : BusinessSimulator) (st : CompanyState) (sh sm : String)
    (shock : Shock) (hdead : st.cash ≤ 0) :
    step sim st sh sm shock = Except.ok ⟨0, 0, 0, st.headcount, false⟩ := by
  unfold step
  rw [if_pos hdead]

/-- Witness for C4 at a broke state under aggressive strategies and wild
shocks. -/
theorem claim_C4_witness :
    step testSim ⟨0, 7, 8, 3, true⟩ ("Aggressive") ("Double") ⟨1 / 25, true, true⟩ =
      Except.ok ⟨0, 0, 0, 3, false⟩ :=
  claim_C4 testSim ⟨0, 7, 8, 3, true⟩ ("Aggressive") ("Double") ⟨1 / 25, true, true⟩
    (le_refl (0 : ℚ))

/-! ## C9: no exception on a live step, degenerate CAC/ARPU included -/

/-- C9: for every live input state, any strategies, any shock draws and any
simulator parameters (CAC ≤ 0 and ARPU ≤ 0 included), `step` completes
without raising: both divisors are floored at 1, so no `ZeroDivisionError`
occurs and degenerate CAC/ARPU are not treated as errors. -/
theorem claim_C9 (sim : BusinessSimulator) (st : CompanyState) (sh sm : String)
    (shock : Shock) (hlive : 0 < st.cash) :
    ∃ s2, step sim st sh sm shock = Except.ok s2 := by
  rw [step_live_eq sim st sh sm shock (not_le.mpr hlive)]
  split
  · exact ⟨_, rfl⟩
  · exact ⟨_, rfl⟩

/-- Witness for C9 with CAC = 0 and ARPU = 0. -/
theorem claim_C9_witness :
    ∃ s2, step simZero st100 ("None") ("Double") zeroShock = Except.ok s2 :=
  claim_C9 simZero st100 ("None") ("Double") zeroShock (by norm_num [st100])

/-! ## C10: ARPU = 0 forces revenue 0 -/

/-- C10: if the simulator is constructed with ARPU = 0 then every live
step returns `revenue = 0`: the customer count divides by the floored
ARPU but next month's revenue multiplies by the raw ARPU. -/
theorem claim_C10 (sim : BusinessSimulator) (st : CompanyState) (sh sm : String)
    (shock : Shock) (s2 : CompanyState) (harpu : sim.arpu = 0)
    (hlive : 0 < st.cash) (hok : step sim st sh sm shock = Except.ok s2) :
    s2.revenue = 0 := by
  rw [step_live_eq sim st sh sm shock (not_le.mpr hlive)] at hok
  split at hok <;> cases hok <;> simp [stepRevenue, harpu]

/-- Witness for C10 at the death scenario under `simZero`. -/
theorem claim_C10_witness : deadZ.revenue = 0 :=
  claim_C10 simZero st100 ("None") ("Double") zeroShock deadZ rfl
    (by norm_num [st100]) eval_step_simZero

/-! ## C5: the death scenario -/

/-- C5 counterexample: from `{cash: 100, revenue: 0, burn: 5000,
headcount: 5}` a step with marketing `Double` under the test suite's
CAC = 50 / ARPU = 100 and a legal (zero) shock draw survives with cash 100,
refuting "one step with any strategy yields alive=false and cash=0
deterministically". -/
theorem claim_C5_counterexample :
    step testSim st100 ("None") ("Double") zeroShock = Except.ok aliveCex ∧
      aliveCex.alive = true ∧ aliveCex.cash ≠ 0 :=
  ⟨eval_step_death_double, rfl, by norm_num [aliveCex]⟩

/-- C5 amended: from `{cash: 100, revenue: 0, burn: 5000, headcount: 5}`,
one step with any hiring strategy and marketing strategy `Same` yields
`alive = false` and `cash = 0` for every shock draw and every simulator
parameterization (with zero revenue no customers exist, so burn of at
least 5000 always exceeds the 100 cash). -/
theorem claim_C5_amended (sim : BusinessSimulator) (sh : String) (shock : Shock) :
    ∃ s2, step sim st100 sh ("Same") shock = Except.ok s2 ∧
      s2.alive = false ∧ s2.cash = 0 := by
  have h : ¬ st100.cash ≤ 0 := by norm_num [st100]
  rw [step_live_eq sim st100 sh "Same" shock h]
  have hrev : stepRevenue sim st100 "Same" shock = 0 := by
    simp [stepRevenue, nextCustomers, marketing_budget_of, st100]
  have hburn : (5000 : ℚ) ≤ stepBurn st100 sh "Same" shock := by
    simp only [stepBurn, preBurn, marketing_budget_of, new_hires_of, st100,
      salary_per_head]
    split_ifs <;> norm_num
  have hcash : stepCash sim st100 sh "Same" shock ≤ 0 := by
    unfold stepCash
    rw [hrev]
    have hc : st100.cash = 100 := rfl
    rw [hc]
    linarith [hburn]
  rw [if_pos hcash]
  exact ⟨_, rfl, rfl, rfl⟩

/-! ## Lemmas about the month loop and the run loop -/

/-- A dead state is copied verbatim for every remaining month, without
re-invoking `step`. -/
theorem runMonths_dead (sim : BusinessSimulator) (sh sm : String)
    (shocks : ℕ → Shock) (state : CompanyState) (hdead : state.alive = false) :
    ∀ (k month : ℕ),
      runMonths sim sh sm shocks month k state = Except.ok (List.replicate k state) := by
  intro k
  induction k with
  | zero => intro month; rfl
  | succ n ih =>
    intro month
    simp only [runMonths, hdead, Bool.false_eq_true, if_false]
    rw [ih (month + 1), List.replicate_succ]

/-- The month loop never raises an exception. -/
theorem runMonths_ok (sim : BusinessSimulator) (sh sm : String) (shocks : ℕ → Shock) :
    ∀ (k month : ℕ) (state : CompanyState),
      ∃ hist, runMonths sim sh sm shocks month k state = Except.ok hist := by
  intro k
  induction k with
  | zero => exact fun month state => ⟨[], rfl⟩
  | succ n ih =>
    intro month state
    by_cases ha : state.alive = true
    · obtain ⟨s2, hs2⟩ := step_ok_exists sim state sh sm (shocks month)
      obtain ⟨rest, hrest⟩ := ih (month + 1) s2
      refine ⟨s2 :: rest, ?_⟩
      simp only [runMonths, ha, if_true, hs2, hrest]
    · have hdead : state.alive = false := by
        revert ha; cases state.alive <;> simp
      exact ⟨List.replicate (n + 1) state, runMonths_dead sim sh sm shocks state hdead _ _⟩

/-- The run loop never raises an exception. -/
theorem runRuns_ok (sim : BusinessSimulator) (months : ℕ) (sh sm : String)
    (shocks : ℕ → ℕ → Shock) :
    ∀ (k r : ℕ), ∃ res, runRuns sim months sh sm shocks r k = Except.ok res := by
  intro k
  induction k with
  | zero => exact fun r => ⟨[], rfl⟩
  | succ n ih =>
    intro r
    obtain ⟨hist, hhist⟩ := runMonths_ok sim sh sm (shocks r) months 0 (initState sim)
    obtain ⟨rest, hrest⟩ := ih (r + 1)
    refine ⟨hist :: rest, ?_⟩
    simp only [runRuns, hhist, hrest]

/-- Any state in a month-loop history has nonnegative cash, and zero cash
if it is dead, provided the incoming state has zero cash when dead. -/
theorem runMonths_good (sim : BusinessSimulator) (sh sm : String) (shocks : ℕ → Shock) :
    ∀ (k month : ℕ) (state : CompanyState) (hist : List CompanyState),
      runMonths sim sh sm shocks month k state = Except.ok hist →
      (state.alive = false → state.cash = 0) →
      ∀ s ∈ hist, 0 ≤ s.cash ∧ (s.alive = false → s.cash = 0) := by
  intro k
  induction k with
  | zero =>
    intro month state hist h _
    simp only [runMonths, Except.ok.injEq] at h
    subst h
    intro s hs
    cases hs
  | succ n ih =>
    intro month state hist h hstate
    by_cases ha : state.alive = true
    · obtain ⟨s2, hs2⟩ := step_ok_exists sim state sh sm (shocks month)
      simp only [runMonths, ha, if_true, hs2] at h
      cases hrest : runMonths sim sh sm shocks (month + 1) n s2 with
      | error e => simp only [hrest] at h; exact Except.noConfusion h
      | ok rest =>
        simp only [hrest, Except.ok.injEq] at h
        subst h
        intro s hs
        rcases List.mem_cons.mp hs with rfl | hmem
        · exact step_out_good sim state sh sm (shocks month) s hs2
        · exact ih (month + 1) s2 rest hrest
            (step_out_good sim state sh sm (shocks month) s2 hs2).2 s hmem
    · have hdead : state.alive = false := by
        revert ha; cases state.alive <;> simp
      simp only [runMonths, hdead, Bool.false_eq_true, if_false] at h
      cases hrest : runMonths sim sh sm shocks (month + 1) n state with
      | error e => simp only [hrest] at h; exact Except.noConfusion h
      | ok rest =>
        simp only [hrest, Except.ok.injEq] at h
        subst h
        intro s hs
        rcases List.mem_cons.mp hs with rfl | hmem
        · exact ⟨le_of_eq (hstate hdead).symm, fun _ => hstate hdead⟩
        · exact ih (month + 1) state rest hrest hstate s hmem

/-- Once a history entry is dead, every later entry of the same history is
the same state (dead months are verbatim copies). -/
theorem runMonths_frozen (sim : BusinessSimulator) (sh sm : String) (shocks : ℕ → Shock) :
    ∀ (k month : ℕ) (state : CompanyState) (hist : List CompanyState),
      runMonths sim sh sm shocks month k state = Except.ok hist →
      ∀ t1 t2 : ℕ, t1 ≤ t2 → t2 < hist.length →
        (hist.getD t1 default).alive = false →
        hist.getD t2 default = hist.getD t1 default := by
  intro k
  induction k with
  | zero =>
    intro month state hist h t1 t2 _ h2 _
    simp only [runMonths, Except.ok.injEq] at h
    subst h
    exact absurd h2 (by simp)
  | succ n ih =>
    intro month state hist h t1 t2 h12 h2 hdead
    by_cases ha : state.alive = true
    · obtain ⟨s2, hs2⟩ := step_ok_exists sim state sh sm (shocks month)
      simp only [runMonths, ha, if_true, hs2] at h
      cases hrest : runMonths sim sh sm shocks (month + 1) n s2 with
      | error e => simp only [hrest] at h; exact Except.noConfusion h
      | ok rest =>
        simp only [hrest, Except.ok.injEq] at h
        subst h
        cases t1 with
        | zero =>
          have hs2dead : s2.alive = false := by simpa using hdead
          have hrep : rest = List.replicate n s2 := by
            have := runMonths_dead sim sh sm shocks s2 hs2dead n (month + 1)
            rw [hrest] at this
            exact Except.ok.inj this
          subst hrep
          cases t2 with
          | zero => rfl
          | succ j =>
            have hj : j < n := by
              simpa [List.length_replicate] using h2
            simp only [List.getD_cons_succ, List.getD_cons_zero]
            rw [List.getD_eq_getElem _ _ (by simpa using hj), List.getElem_replicate]
        | succ j1 =>
          cases t2 with
          | zero => exact absurd h12 (by simp)
          | succ j2 =>
            simp only [List.getD_cons_succ] at hdead ⊢
            exact ih (month + 1) s2 rest hrest j1 j2 (Nat.le_of_succ_le_succ h12)
              (by simpa using h2) hdead
    · have hdeadst : state.alive = false := by
        revert ha; cases state.alive <;> simp
      simp only [runMonths, hdeadst, Bool.false_eq_true, if_false] at h
      cases hrest : runMonths sim sh sm shocks (month + 1) n state with
      | error e => simp only [hrest] at h; exact Except.noConfusion h
      | ok rest =>
        simp only [hrest, Except.ok.injEq] at h
        subst h
        have hrep : rest = List.replicate n state := by
          have := runMonths_dead sim sh sm shocks state hdeadst n (month + 1)
          rw [hrest] at this
          exact Except.ok.inj this
        subst hrep
        cases t1 with
        | zero =>
          cases t2 with
          | zero => rfl
          | succ j =>
            have hj : j < n := by
              simpa [List.length_replicate] using h2
            simp only [List.getD_cons_succ, List.getD_cons_zero]
            rw [List.getD_eq_getElem _ _ (by simpa using hj), List.getElem_replicate]
        | succ j1 =>
          cases t2 with
          | zero => exact absurd h12 (by simp)
          | succ j2 =>
            simp only [List.getD_cons_succ] at hdead ⊢
            have hj1 : j1 < n := by
              have hj2 : j2 < n := by simpa [List.length_replicate] using h2
              exact lt_of_le_of_lt (Nat.le_of_succ_le_succ h12) hj2
            have hj2 : j2 < n := by simpa [List.length_replicate] using h2
            rw [List.getD_eq_getElem _ _ (by simpa using hj2),
              List.getD_eq_getElem _ _ (by simpa using hj1),
              List.getElem_replicate, List.getElem_replicate]

/-- Every trajectory in a run-loop result is a month-loop history started
from the initial state. -/
theorem runRuns_mem (sim : BusinessSimulator) (months : ℕ) (sh sm : String)
    (shocks : ℕ → ℕ → Shock) :
    ∀ (k r : ℕ) (results : List (List CompanyState)) (traj : List CompanyState),
      runRuns sim months sh sm shocks r k = Except.ok results → traj ∈ results →
      ∃ rr, runMonths sim sh sm (shocks rr) 0 months (initState sim) = Except.ok traj := by
  intro k
  induction k with
  | zero =>
    intro r results traj h hmem
    simp only [runRuns, Except.ok.injEq] at h
    subst h
    cases hmem
  | succ n ih =>
    intro r results traj h hmem
    cases hrm : runMonths sim sh sm (shocks r) 0 months (initState sim) with
    | error e => simp only [runRuns, hrm] at h; exact Except.noConfusion h
    | ok hist =>
      cases hrr : runRuns sim months sh sm shocks (r + 1) n with
      | error e => simp only [runRuns, hrm, hrr] at h; exact Except.noConfusion h
      | ok rest =>
        simp only [runRuns, hrm, hrr, Except.ok.injEq] at h
        subst h
        rcases List.mem_cons.mp hmem with rfl | hmem2
        · exact ⟨r, hrm⟩
        · exact ih (r + 1) rest traj hrr hmem2

/-- With zero months every run produces an empty history. -/
theorem runRuns_zero_months (sim : BusinessSimulator) (sh sm : String)
    (shocks : ℕ → ℕ → Shock) :
    ∀ (k r : ℕ), runRuns sim 0 sh sm shocks r k = Except.ok (List.replicate k []) := by
  intro k
  induction k with
  | zero => intro r; rfl
  | succ n ih =>
    intro r
    simp only [runRuns]
    rw [show runMonths sim sh sm (shocks r) 0 0 (initState sim) = Except.ok [] from rfl,
      ih (r + 1), List.replicate_succ]

/-! ## C1: absorbing death along a trajectory -/

/-- A one-month one-run simulation from negative starting values silently
succeeds (used by C7). -/
theorem eval_run_simNeg :
    run_simulation simNeg 1 1 ("None") ("Same") zShocks = Except.ok [[deadNeg]] := by
  simp [run_simulation, runRuns, runMonths, initState, step, simNeg, zShocks,
    zeroShock, deadNeg]
  try norm_num

/-- C1 counterexample: in the death scenario the month after death is a
verbatim copy of the death state, whose burn is 5000, not 0 — refuting
"every later month has ... burn = 0". -/
theorem claim_C1_counterexample :
    run_simulation sim100 2 1 ("None") ("Same") zShocks = Except.ok [[dead1, dead1]] ∧
      ([dead1, dead1].getD 0 default).alive = false ∧
      ([dead1, dead1].getD 1 default).burn ≠ 0 := by
  refine ⟨eval_run_sim100, rfl, ?_⟩
  simp [dead1]
  try norm_num

/-- C1 amended: in every trajectory produced by `run_simulation`, if
`alive = false` at month `t1` then every later month is a verbatim copy of
month `t1` (so `alive = false` and `cash = 0` there, with revenue and burn
frozen at their month-`t1` values rather than reset to 0), and month `t1`
itself has `cash = 0`. -/
theorem claim_C1_amended (sim : BusinessSimulator) (months runs : ℤ) (sh sm : String)
    (shocks : ℕ → ℕ → Shock) (results : List (List CompanyState))
    (hok : run_simulation sim months runs sh sm shocks = Except.ok results)
    (traj : List CompanyState) (htraj : traj ∈ results) (t1 t2 : ℕ) (h12 : t1 ≤ t2)
    (h2 : t2 < traj.length) (hdead : (traj.getD t1 default).alive = false) :
    traj.getD t2 default = traj.getD t1 default ∧ (traj.getD t1 default).cash = 0 := by
  unfold run_simulation at hok
  obtain ⟨rr, hrm⟩ := runRuns_mem sim months.toNat sh sm shocks runs.toNat 0 results
    traj hok htraj
  refine ⟨runMonths_frozen sim sh sm (shocks rr) months.toNat 0 (initState sim)
    traj hrm t1 t2 h12 h2 hdead, ?_⟩
  have h1 : t1 < traj.length := lt_of_le_of_lt h12 h2
  have hmem : traj.getD t1 default ∈ traj := by
    rw [List.getD_eq_getElem _ _ h1]
    exact List.getElem_mem h1
  exact (runMonths_good sim sh sm (shocks rr) months.toNat 0 (initState sim) traj hrm
    (fun habs => by simp [initState] at habs) _ hmem).2 hdead

/-- Witness for C1 at the concrete death scenario. -/
theorem claim_C1_witness :
    [dead1, dead1].getD 1 default = [dead1, dead1].getD 0 default ∧
      ([dead1, dead1].getD 0 default).cash = 0 :=
  claim_C1_amended sim100 2 1 ("None") ("Same") zShocks [[dead1, dead1]] eval_run_sim100
    [dead1, dead1] (by simp) 0 1 (by norm_num) (by norm_num) rfl

/-! ## C3: cash is never negative -/

/-- C3: in every trajectory produced by `run_simulation` the cash field is
nonnegative at every month, and any live step whose cash update would go
`≤ 0` clamps cash to exactly 0 and sets `alive = false` in that same
step. -/
theorem claim_C3 :
    (∀ (sim : BusinessSimulator) (months runs : ℤ) (sh sm : String)
      (shocks : ℕ → ℕ → Shock) (results : List (List CompanyState)),
      run_simulation sim months runs sh sm shocks = Except.ok results →
      ∀ traj ∈ results, ∀ s ∈ traj, 0 ≤ s.cash) ∧
    (∀ (sim : BusinessSimulator) (st : CompanyState) (sh sm : String) (shock : Shock)
      (s2 : CompanyState), 0 < st.cash → step sim st sh sm shock = Except.ok s2 →
      st.cash + s2.revenue - s2.burn ≤ 0 → s2.cash = 0 ∧ s2.alive = false) := by
  constructor
  · intro sim months runs sh sm shocks results hok traj htraj s hs
    unfold run_simulation at hok
    obtain ⟨rr, hrm⟩ := runRuns_mem sim months.toNat sh sm shocks runs.toNat 0 results
      traj hok htraj
    exact (runMonths_good sim sh sm (shocks rr) months.toNat 0 (initState sim) traj hrm
      (fun habs => by simp [initState] at habs) s hs).1
  · intro sim st sh sm shock s2 hlive hok hle
    rw [step_live_eq sim st sh sm shock (not_le.mpr hlive)] at hok
    split at hok
    · cases hok
      exact ⟨rfl, rfl⟩
    · rename_i hcond
      cases hok
      exact absurd (by simpa [stepCash] using hle) hcond

/-- Witness for C3 at the concrete death scenario. -/
theorem claim_C3_witness :
    (0 ≤ dead1.cash) ∧ (dead1.cash = 0 ∧ dead1.alive = false) :=
  ⟨claim_C3.1 sim100 2 1 ("None") ("Same") zShocks [[dead1, dead1]] eval_run_sim100
      [dead1, dead1] (by simp) dead1 (by simp),
    claim_C3.2 sim100 st100 ("None") ("Same") zeroShock dead1 (by norm_num [st100])
      eval_step_sim100 (by norm_num [st100, dead1])⟩

/-! ## C7: no validation of months, runs or starting values -/

/-- C7 counterexample: `run_simulation` with `months = 0` returns a
degenerate success instead of a validation error, and a simulator built
from negative starting values also runs without any error. -/
theorem claim_C7_counterexample :
    run_simulation testSim 0 1 ("None") ("Same") zShocks = Except.ok [[]] ∧
      run_simulation simNeg 1 1 ("None") ("Same") zShocks = Except.ok [[deadNeg]] :=
  ⟨rfl, eval_run_simNeg⟩

/-- C7 amended: `run_simulation` performs no validation: it never raises
for any arguments (negative starting values included); non-positive `runs`
silently yields an empty collection and non-positive `months` silently
yields `runs` empty trajectories. -/
theorem claim_C7_amended (sim : BusinessSimulator) (months runs : ℤ) (sh sm : String)
    (shocks : ℕ → ℕ → Shock) :
    (∃ res, run_simulation sim months runs sh sm shocks = Except.ok res) ∧
    (runs ≤ 0 → run_simulation sim months runs sh sm shocks = Except.ok []) ∧
    (months ≤ 0 →
      run_simulation sim months runs sh sm shocks =
        Except.ok (List.replicate runs.toNat [])) := by
  refine ⟨?_, ?_, ?_⟩
  · unfold run_simulation
    exact runRuns_ok sim months.toNat sh sm shocks runs.toNat 0
  · intro hruns
    unfold run_simulation
    rw [Int.toNat_of_nonpos hruns]
    rfl
  · intro hmonths
    unfold run_simulation
    rw [Int.toNat_of_nonpos hmonths]
    exact runRuns_zero_months sim sh sm shocks runs.toNat 0

/-- Witness for C7 at months = 0, runs = 0. -/
theorem claim_C7_witness :
    run_simulation testSim 0 0 ("None") ("Same") zShocks = Except.ok [] ∧
      run_simulation testSim 0 0 ("None") ("Same") zShocks =
        Except.ok (List.replicate (0 : ℤ).toNat []) :=
  ⟨(claim_C7_amended testSim 0 0 ("None") ("Same") zShocks).2.1 (le_refl 0),
    (claim_C7_amended testSim 0 0 ("None") ("Same") zShocks).2.2 (le_refl 0)⟩

/-! ## Percentile interpolation lemmas (C8) -/

/-- Monotone indexing into a sorted list via `getD`. -/
theorem sorted_getD_mono {s : List ℚ} (hs : List.Sorted (· ≤ ·) s) {a b : ℕ}
    (hab : a ≤ b) (hb : b < s.length) : s.getD a 0 ≤ s.getD b 0 := by
  have ha : a < s.length := lt_of_le_of_lt hab hb
  rw [List.getD_eq_getElem _ _ ha, List.getD_eq_getElem _ _ hb]
  rcases eq_or_lt_of_le hab with rfl | hlt
  · exact le_refl _
  · exact hs.rel_get_of_lt (show (⟨a, ha⟩ : Fin s.length) < ⟨b, hb⟩ from hlt)

/-- Cast of the clamped floor is below the position, for nonnegative
positions. -/
theorem floor_toNat_le {pos : ℚ} (h : 0 ≤ pos) :
    (((Int.floor pos).toNat : ℕ) : ℚ) ≤ pos := by
  have hfl : 0 ≤ Int.floor pos := Int.floor_nonneg.mpr h
  have hcast : (((Int.floor pos).toNat : ℕ) : ℚ) = ((Int.floor pos : ℤ) : ℚ) := by
    exact_mod_cast Int.toNat_of_nonneg hfl
  rw [hcast]
  exact Int.floor_le pos

/-- The position is below the clamped floor plus one, for nonnegative
positions. -/
theorem lt_floor_toNat_add_one {pos : ℚ} (h : 0 ≤ pos) :
    pos < (((Int.floor pos).toNat : ℕ) : ℚ) + 1 := by
  have hfl : 0 ≤ Int.floor pos := Int.floor_nonneg.mpr h
  have hcast : (((Int.floor pos).toNat : ℕ) : ℚ) = ((Int.floor pos : ℤ) : ℚ) := by
    exact_mod_cast Int.toNat_of_nonneg hfl
  rw [hcast]
  exact Int.lt_floor_add_one pos

/-- The clamped floor is monotone. -/
theorem floor_toNat_mono {p1 p2 : ℚ} (h : p1 ≤ p2) :
    (Int.floor p1).toNat ≤ (Int.floor p2).toNat := by
  have := Int.floor_mono h
  omega

/-- An interpolated value is at most the right sample point. -/
theorem interp_le_upper {s : List ℚ} (hs : List.Sorted (· ≤ ·) s) {i : ℕ} {pos : ℚ}
    (h1 : (i : ℚ) ≤ pos) (h2 : pos ≤ (i : ℚ) + 1) (hin : i + 1 < s.length) :
    s.getD i 0 + (pos - (i : ℚ)) * (s.getD (i + 1) 0 - s.getD i 0) ≤
      s.getD (i + 1) 0 := by
  have hd : 0 ≤ s.getD (i + 1) 0 - s.getD i 0 :=
    sub_nonneg.mpr (sorted_getD_mono hs (Nat.le_succ i) hin)
  have hf : pos - (i : ℚ) ≤ 1 := by linarith
  have hmul : (pos - (i : ℚ)) * (s.getD (i + 1) 0 - s.getD i 0) ≤
      1 * (s.getD (i + 1) 0 - s.getD i 0) := mul_le_mul_of_nonneg_right hf hd
  linarith

/-- An interpolated value is at least the left sample point. -/
theorem lower_le_interp {s : List ℚ} (hs : List.Sorted (· ≤ ·) s) {i : ℕ} {pos : ℚ}
    (h1 : (i : ℚ) ≤ pos) (hin : i + 1 < s.length) :
    s.getD i 0 ≤ s.getD i 0 + (pos - (i : ℚ)) * (s.getD (i + 1) 0 - s.getD i 0) :=
  le_add_of_nonneg_right (mul_nonneg (by linarith)
    (sub_nonneg.mpr (sorted_getD_mono hs (Nat.le_succ i) hin)))

/-- Linear interpolation into a sorted sample is monotone in the
position. -/
theorem npInterp_mono (s : List ℚ) (hs : List.Sorted (· ≤ ·) s) (hn : s.length ≠ 0)
    (pos1 pos2 : ℚ) (h0 : 0 ≤ pos1) (h12 : pos1 ≤ pos2) :
    npInterp s pos1 ≤ npInterp s pos2 := by
  have h02 : 0 ≤ pos2 := le_trans h0 h12
  unfold npInterp
  set n := s.length with hn_def
  set i1 := (Int.floor pos1).toNat with hi1_def
  set i2 := (Int.floor pos2).toNat with hi2_def
  have hi1le : (i1 : ℚ) ≤ pos1 := floor_toNat_le h0
  have hi2le : (i2 : ℚ) ≤ pos2 := floor_toNat_le h02
  have hi1lt : pos1 < (i1 : ℚ) + 1 := lt_floor_toNat_add_one h0
  have hi2lt : pos2 < (i2 : ℚ) + 1 := lt_floor_toNat_add_one h02
  have hii : i1 ≤ i2 := floor_toNat_mono h12
  split_ifs with hA hB hB2
  · rcases eq_or_lt_of_le hii with heq | hlt
    · rw [heq]
      have hd2 : 0 ≤ s.getD (i2 + 1) 0 - s.getD i2 0 :=
        sub_nonneg.mpr (sorted_getD_mono hs (Nat.le_succ i2) hB)
      have hmul : (pos1 - (i2 : ℚ)) * (s.getD (i2 + 1) 0 - s.getD i2 0) ≤
          (pos2 - (i2 : ℚ)) * (s.getD (i2 + 1) 0 - s.getD i2 0) :=
        mul_le_mul_of_nonneg_right (by linarith) hd2
      linarith
    · have hstep1 := interp_le_upper hs hi1le (le_of_lt hi1lt) hA
      have hstep2 : s.getD (i1 + 1) 0 ≤ s.getD i2 0 :=
        sorted_getD_mono hs (Nat.succ_le_of_lt hlt) (Nat.lt_of_succ_lt hB)
      have hstep3 := lower_le_interp hs hi2le hB
      linarith
  · have hstep1 := interp_le_upper hs hi1le (le_of_lt hi1lt) hA
    have hstep2 : s.getD (i1 + 1) 0 ≤ s.getD (n - 1) 0 :=
      sorted_getD_mono hs (by omega) (by omega)
    linarith
  · exact absurd hB2 (by omega)
  · exact le_refl _

/-- The numpy percentile is monotone in the requested percentage. -/
theorem np_percentile_mono (q1 q2 : ℚ) (h0 : 0 ≤ q1) (h12 : q1 ≤ q2)
    (xs : List ℚ) : np_percentile q1 xs ≤ np_percentile q2 xs := by
  unfold np_percentile
  by_cases hn : xs.length = 0
  · simp [hn]
  · rw [if_neg hn, if_neg hn]
    have hsorted : List.Sorted (· ≤ ·) (List.insertionSort (· ≤ ·) xs) :=
      List.sorted_insertionSort (· ≤ ·) xs
    have hlen : (List.insertionSort (· ≤ ·) xs).length = xs.length :=
      List.length_insertionSort (· ≤ ·) xs
    have hn1 : (1 : ℚ) ≤ (xs.length : ℚ) := by
      exact_mod_cast Nat.one_le_iff_ne_zero.mpr hn
    refine npInterp_mono _ hsorted (by rw [hlen]; exact hn) _ _ ?_ ?_
    · have : (0 : ℚ) ≤ (xs.length : ℚ) - 1 := by linarith
      positivity
    · have hnum : q1 * ((xs.length : ℚ) - 1) ≤ q2 * ((xs.length : ℚ) - 1) :=
        mul_le_mul_of_nonneg_right h12 (by linarith)
      linarith

/-- The numpy median is the 50th linear-interpolation percentile. -/
theorem np_median_eq_percentile (xs : List ℚ) :
    np_median xs = np_percentile 50 xs := by
  unfold np_median np_percentile
  by_cases hn : xs.length = 0
  · simp [hn]
  · rw [if_neg hn, if_neg hn]
    have hlen : (List.insertionSort (· ≤ ·) xs).length = xs.length :=
      List.length_insertionSort (· ≤ ·) xs
    by_cases hpar : xs.length % 2 = 1
    · rw [if_pos hpar]
      obtain ⟨m, hm⟩ : ∃ m, xs.length = 2 * m + 1 := ⟨xs.length / 2, by omega⟩
      have hpos : (50 : ℚ) * ((xs.length : ℚ) - 1) / 100 = (m : ℚ) := by
        rw [hm]
        push_cast
        ring
      rw [hpos]
      unfold npInterp
      have hfloor : (Int.floor ((m : ℕ) : ℚ)).toNat = m := by
        rw [Int.floor_natCast]
        exact Int.toNat_ofNat m
      rw [hfloor]
      by_cases hm0 : m = 0
      · subst hm0
        rw [if_neg (show ¬ (0 + 1 < (List.insertionSort (· ≤ ·) xs).length) by
          rw [hlen, hm]; omega)]
        simp [hlen, hm]
      · rw [if_pos (show m + 1 < (List.insertionSort (· ≤ ·) xs).length by
          rw [hlen, hm]; omega)]
        rw [sub_self, zero_mul, add_zero]
        have hidx : xs.length / 2 = m := by omega
        rw [hidx]
    · rw [if_neg hpar]
      obtain ⟨m, hm⟩ : ∃ m, xs.length = 2 * m := ⟨xs.length / 2, by omega⟩
      have hm1 : 1 ≤ m := by omega
      have hpos : (50 : ℚ) * ((xs.length : ℚ) - 1) / 100 = (m : ℚ) - 1 / 2 := by
        rw [hm]
        push_cast
        ring
      rw [hpos]
      unfold npInterp
      have hfloorz : Int.floor ((m : ℚ) - 1 / 2) = (m : ℤ) - 1 := by
        rw [Int.floor_eq_iff]
        constructor
        · push_cast
          linarith [show (1 : ℚ) ≤ (m : ℚ) from by exact_mod_cast hm1]
        · push_cast
          linarith
      have hfloor : (Int.floor ((m : ℚ) - 1 / 2)).toNat = m - 1 := by
        rw [hfloorz]
        omega
      rw [hfloor]
      rw [if_pos (show m - 1 + 1 < (List.insertionSort (· ≤ ·) xs).length by
        rw [hlen, hm]; omega)]
      have hidx : m - 1 + 1 = m := by omega
      have hcast : ((m - 1 : ℕ) : ℚ) = (m : ℚ) - 1 := by
        rw [Nat.cast_sub hm1]
        norm_num
      rw [hidx, hcast]
      have hidx2 : xs.length / 2 = m := by omega
      rw [hidx2]
      ring

/-- Indexing a map over `List.range` with a default. -/
theorem getD_map_range (f : ℕ → ℚ) (m t : ℕ) :
    ((List.range m).map f).getD t 0 = if t < m then f t else 0 := by
  by_cases h : t < m
  · rw [if_pos h]
    have hlt : t < ((List.range m).map f).length := by
      rw [List.length_map, List.length_range]
      exact h
    rw [List.getD_eq_getElem _ _ hlt, List.getElem_map, List.getElem_range]
  · rw [if_neg h]
    apply List.getD_eq_default
    rw [List.length_map, List.length_range]
    omega

/-! ## C8: percentile band ordering -/

/-- C8: every aggregate summary returned by `process_results` satisfies
`p10_cash[t] ≤ median_cash[t] ≤ p90_cash[t]` at every month `t`
(percentile monotonicity of the numpy linear-interpolation definition). -/
theorem claim_C8 (results : List (List CompanyState)) (summary : Summary)
    (hok : process_results results = Except.ok summary) (t : ℕ) :
    summary.p10_cash.getD t 0 ≤ summary.median_cash.getD t 0 ∧
      summary.median_cash.getD t 0 ≤ summary.p90_cash.getD t 0 := by
  cases results with
  | nil => exact absurd hok (by simp [process_results])
  | cons r0 rest =>
    simp only [process_results] at hok
    cases htr : processRuns r0.length (r0 :: rest) with
    | error e => simp only [htr] at hok; exact Except.noConfusion hok
    | ok triples =>
      simp only [htr, Except.ok.injEq] at hok
      subst hok
      simp only [getD_map_range]
      by_cases ht : t < r0.length
      · simp only [if_pos ht]
        constructor
        · rw [np_median_eq_percentile]
          exact np_percentile_mono 10 50 (by norm_num) (by norm_num) _
        · rw [np_median_eq_percentile]
          exact np_percentile_mono 50 90 (by norm_num) (by norm_num) _
      · simp only [if_neg ht]
        exact ⟨le_refl 0, le_refl 0⟩

/-- Witness for C8 at the one-run one-month sample. -/
theorem claim_C8_witness :
    sampleSummary.p10_cash.getD 0 0 ≤ sampleSummary.median_cash.getD 0 0 ∧
      sampleSummary.median_cash.getD 0 0 ≤ sampleSummary.p90_cash.getD 0 0 :=
  claim_C8 [[sampleState]] sampleSummary eval_process_sample 0

/-! ## C6: aggregation of empty inputs -/

/-- C6 counterexample: aggregating an empty trajectory collection fails
with an `IndexError` (`results[0]` out of range), not a descriptive
error. -/
theorem claim_C6_counterexample :
    process_results ([] : List (List CompanyState)) =
      Except.error PyError.indexError := rfl

/-- C6 amended: aggregation of an empty trajectory collection (zero runs),
or of a collection whose first trajectory has zero months, fails with an
uncaught `IndexError` (`results[0]`, respectively `run[-1]`, out of
range) rather than a descriptive error. -/
theorem claim_C6_amended (rest : List (List CompanyState)) :
    process_results ([] : List (List CompanyState)) =
        Except.error PyError.indexError ∧
      process_results ([] :: rest) = Except.error PyError.indexError :=
  ⟨rfl, rfl⟩
